import Mathlib

/-!
Shallow embedding of the JOS kernel monitor (kern/monitor.c): the command
tokenizer and dispatcher (`runcmd`), the page diagnostic handlers
(`mon_alloc_page`, `mon_page_status`, `mon_free_page`), the two-pass
frame-pointer stack unwinder of `mon_backtrace` (`dump_stack` pass and
`dump_backstrace_symbols` pass), and the REPL exit condition of `monitor`.

Console output is modelled as a list of abstract output records (`Out`),
one per `cprintf` message, carrying the data the message formats; the
text rendering itself is the external console collaborator.  Machine
words are modelled as `Nat`/`Int`; stack memory is a word-addressed map
`Nat → Nat` (the C code indexes frames by `unsigned int*`, so one unit of
address is one 32-bit word).  The possibly non-terminating `do…while`
unwind loops are embedded with explicit fuel: a `none` result means the
loop has not halted within the given number of iterations.
-/

/-- The whitespace set of `#define WHITESPACE "\t\r\n "` in monitor.c. -/
def isWS (c : Char) : Bool :=
  c == ' ' || c == '\t' || c == '\r' || c == '\n'

/-- `#define MAXARGS 16` in monitor.c. -/
def MAXARGS : Nat := 16

/-- The tokenization loop of `runcmd` without the `MAXARGS` abort: split the
buffer on `isWS` into maximal non-whitespace runs.  `cur` is the (reversed)
token currently being scanned, `acc` the (reversed) list of finished tokens. -/
def tokU : List Char → List Char → List (List Char) → List (List Char)
  | [], cur, acc =>
    match cur with
    | [] => acc.reverse
    | _ :: _ => (cur.reverse :: acc).reverse
  | c :: cs, cur, acc =>
    if isWS c then
      match cur with
      | [] => tokU cs [] acc
      | _ :: _ => tokU cs [] (cur.reverse :: acc)
    else
      tokU cs (c :: cur) acc

/-- The tokenization loop of `runcmd` (monitor.c lines 209-228): as `tokU`,
but when a new token is about to start while `argc == MAXARGS-1` tokens are
already stored, tokenization aborts (`none`), mirroring the
`Too many arguments` early return. -/
def tokAux : List Char → List Char → List (List Char) → Option (List (List Char))
  | [], cur, acc =>
    match cur with
    | [] => some acc.reverse
    | _ :: _ => some ((cur.reverse :: acc).reverse)
  | c :: cs, cur, acc =>
    if isWS c then
      match cur with
      | [] => tokAux cs [] acc
      | _ :: _ => tokAux cs [] (cur.reverse :: acc)
    else
      match cur with
      | [] =>
        if acc.length = MAXARGS - 1 then none
        else tokAux cs [c] acc
      | _ :: _ => tokAux cs (c :: cur) acc

/-- Tokenization as performed by `runcmd` on a fresh command buffer:
`none` means the `Too many arguments` abort fired (zero tokens, no
command is run). -/
def runcmdTokenize (buf : List Char) : Option (List (List Char)) :=
  tokAux buf [] []

/-- One console message of the monitor, carrying the data the
corresponding `cprintf` call formats. -/
inductive Out where
  | helpLine (name desc : List Char)
  | kerninfoDump
  | allocOk (pa : Nat)
  | allocFail
  | usagePageStatus
  | usageFreePage
  | allocated
  | free
  | freeOk
  | freeFail
  | unknownCmd (name : List Char)
  | tooManyArgs (maxa : Nat)
  | currentEip (eip : Nat)
  | frameDump (ebp eipWord : Nat) (argWords : List Nat)
  | symLine (fnName : List Char) (line : Nat)
deriving DecidableEq

/-- Allocator state visible to the monitor: the `pp_ref` reference count of
each page descriptor, indexed by page number. -/
abbrev PageState := Nat → Nat

/-- Point update of a `PageState`. -/
def upd (st : PageState) (i v : Nat) : PageState :=
  fun j => if j = i then v else st j

/-- Result of one handler or `runcmd` invocation: console output, the
allocator state afterwards, and the C return value. -/
structure CmdResult where
  out : List Out
  st : PageState
  ret : Int

/-- Page size of the teaching OS (4 KB pages). -/
def PGSIZE : Nat := 4096

/-- Modelled from the spec: the external allocator interface
`addressToDescriptor(physicalAddress) -> descriptor` (`pa2page`, which lives
in the memory-management unit, not in this file of the repository).  A page
descriptor is identified by its page number, the physical address divided by
the page size. -/
def pa2page (pa : Nat) : Nat := pa / PGSIZE

/-- Modelled from the spec: the external allocator interface
`descriptorToAddress(descriptor) -> physicalAddress` (`page2pa`). -/
def page2pa (pg : Nat) : Nat := pg * PGSIZE

/-- Value of a character as a digit under the given base, if valid
(C numeral digits, letters continuing past 9). -/
def digitVal (base : Nat) (c : Char) : Option Nat :=
  if '0' ≤ c ∧ c ≤ '9' then
    if c.toNat - '0'.toNat < base then some (c.toNat - '0'.toNat) else none
  else if 'a' ≤ c ∧ c ≤ 'z' then
    if c.toNat - 'a'.toNat + 10 < base then some (c.toNat - 'a'.toNat + 10) else none
  else if 'A' ≤ c ∧ c ≤ 'Z' then
    if c.toNat - 'A'.toNat + 10 < base then some (c.toNat - 'A'.toNat + 10) else none
  else none

/-- Accumulate the longest valid digit prefix under the given base. -/
def parseDigits (base : Nat) : List Char → Nat → Nat
  | [], acc => acc
  | c :: cs, acc =>
    match digitVal base c with
    | some d => parseDigits base cs (acc * base + d)
    | none => acc

/-- Modelled from the spec: magnitude part of the C-library `strtol` with
base 0 (the implementation lives in the C library, not in this file of the
repository): a leading `0x` selects hexadecimal, a leading `0` octal,
otherwise decimal; the longest valid digit prefix is converted and anything
malformed beyond it is ignored, an entirely malformed numeral yielding 0. -/
def strtolMag : List Char → Nat
  | '0' :: c :: r =>
    if c = 'x' ∨ c = 'X' then parseDigits 16 r 0
    else parseDigits 8 (c :: r) 0
  | '0' :: [] => 0
  | r => parseDigits 10 r 0

/-- C `isspace` set used by `strtol` to skip leading whitespace. -/
def isSpaceC (c : Char) : Bool :=
  c == ' ' || c == '\t' || c == '\n' || c == '\r' || c == '\x0b' || c == '\x0c'

/-- Modelled from the spec: the C-library `strtol(s, 0, 0)` as called by the
page handlers — skip leading whitespace, accept one optional sign, then
convert by `strtolMag`; a malformed numeral converts to 0 with no error
indication distinguishable from a genuine 0. -/
def strtol (s : List Char) : Int :=
  match s.dropWhile isSpaceC with
  | '-' :: r => - Int.ofNat (strtolMag r)
  | '+' :: r => Int.ofNat (strtolMag r)
  | r => Int.ofNat (strtolMag r)

/-- The C cast of the `strtol` result to `uint32_t` in the page handlers. -/
def castU32 (i : Int) : Nat := (i % (2 ^ 32 : Int)).toNat

/-- The command registry `commands[]` of monitor.c: name and description of
each entry, in registration order. -/
def commands : List (List Char × List Char) :=
  [("help".toList, "Display this list of commands".toList),
   ("kerninfo".toList, "Display information about the kernel".toList),
   ("alloc_page".toList, "Display the address of allocated page".toList),
   ("page_status".toList, "Display the status of the page".toList),
   ("free_page".toList, "Free the page, successfully or not".toList),
   ("backtrace".toList, "Backtrace the function call".toList)]

/-- The registry names, in registration order. -/
def commandNames : List (List Char) := commands.map Prod.fst

/-- `mon_help`: print every registry entry as `name - desc`, return 0. -/
def mon_help (st : PageState) : CmdResult :=
  ⟨commands.map (fun c => Out.helpLine c.1 c.2), st, 0⟩

/-- `mon_kerninfo`: print the fixed block of linker-symbol lines (the values
are supplied by the external loader and abstracted into one output record),
return 0. -/
def mon_kerninfo (st : PageState) : CmdResult :=
  ⟨[Out.kerninfoDump], st, 0⟩

/-- `mon_alloc_page`: ask the external allocator for a page (`alloc` is the
outcome of the `page_alloc` call, modelled from the spec interface
`pageAllocate() -> (descriptor, success)`); on success print its physical
address and increment its reference count, on failure print a failure
message; return 0 either way. -/
def mon_alloc_page (alloc : Option Nat) (st : PageState) : CmdResult :=
  match alloc with
  | some pg => ⟨[Out.allocOk (page2pa pg)], upd st pg (st pg + 1), 0⟩
  | none => ⟨[Out.allocFail], st, 0⟩

/-- `mon_page_status` (monitor.c lines 79-102): usage message unless exactly
one address argument; else parse the address with `strtol`, cast to
`uint32_t`, resolve with `pa2page`, and report allocated when the reference
count is positive, free otherwise; the state is never written; return 0. -/
def mon_page_status (args : List (List Char)) (st : PageState) : CmdResult :=
  match args with
  | [_, a] =>
    if 0 < st (pa2page (castU32 (strtol a))) then ⟨[Out.allocated], st, 0⟩
    else ⟨[Out.free], st, 0⟩
  | _ => ⟨[Out.usagePageStatus], st, 0⟩

/-- `mon_free_page` (monitor.c lines 104-129): usage message unless exactly
one address argument; else parse and resolve the address as
`mon_page_status` does, and only when the reference count is exactly 1 call
`page_decref` (modelled from the spec: decrement the reference count) and
report success, otherwise report failure with no mutation; return 0. -/
def mon_free_page (args : List (List Char)) (st : PageState) : CmdResult :=
  match args with
  | [_, a] =>
    if st (pa2page (castU32 (strtol a))) = 1 then
      ⟨[Out.freeOk],
       upd st (pa2page (castU32 (strtol a)))
         (st (pa2page (castU32 (strtol a))) - 1), 0⟩
    else ⟨[Out.freeFail], st, 0⟩
  | _ => ⟨[Out.usageFreePage], st, 0⟩

/-- Debug info record filled by the external symbolizer (`struct
Eipdebuginfo` as consumed by monitor.c: function name and source line). -/
structure Eipdebuginfo where
  eip_fn_name : List Char
  eip_line : Nat
deriving DecidableEq

/-- The `dump_stack` pass of `mon_backtrace` (monitor.c lines 143-156 and
180-183): the `do { p = dump_stack(p); } while (p);` loop, with explicit
fuel.  Each iteration visits the frame at `p` and advances to
`J_NEXT_EBP(p) = *p`; the loop halts when the saved frame pointer is the
zero sentinel.  `some l` means the loop halted having visited exactly the
frames in `l`, in order; `none` means it has not halted within `fuel`
iterations. -/
def unwindVisits (mem : Nat → Nat) : Nat → Nat → Option (List Nat)
  | 0, _ => none
  | fuel + 1, p =>
    if mem p = 0 then some [p]
    else
      match unwindVisits mem fuel (mem p) with
      | none => none
      | some l => some (p :: l)

/-- The `dump_backstrace_symbols` pass of `mon_backtrace` (monitor.c lines
158-167 and 187-190), with explicit fuel.  Each iteration first prints the
current contents of the shared `info` record, then overwrites `info` with
the symbolizer result for `*(p+1)` (the frame's saved return address), then
advances to `*p`; the loop halts at the zero sentinel.  `some l` is the
sequence of printed records. -/
def symVisits (mem : Nat → Nat) (sym : Nat → Eipdebuginfo) :
    Nat → Nat → Eipdebuginfo → Option (List Eipdebuginfo)
  | 0, _, _ => none
  | fuel + 1, p, info =>
    if mem p = 0 then some [info]
    else
      match symVisits mem sym fuel (mem p) (sym (mem (p + 1))) with
      | none => none
      | some l => some (info :: l)

/-- External collaborators of one monitor command invocation: the
`page_alloc` outcome, the word-addressed stack memory, the symbolizer, the
entry frame pointer `read_ebp()`, the entry instruction pointer
`read_eip()`, and the fuel bounding the unwind loops. -/
structure Externals where
  alloc : Option Nat
  mem : Nat → Nat
  sym : Nat → Eipdebuginfo
  p0 : Nat
  eip0 : Nat
  btFuel : Nat

/-- `mon_backtrace` (monitor.c lines 170-193): print the current eip, prime
the shared `info` record with its symbolization, run the `dump_stack` pass
from `read_ebp()`, then re-start at `read_ebp()` and run the
`dump_backstrace_symbols` pass; return 0.  `none` when either unwind loop
has not halted within the fuel. -/
def mon_backtrace (ext : Externals) (st : PageState) : Option CmdResult :=
  match unwindVisits ext.mem ext.btFuel ext.p0,
        symVisits ext.mem ext.sym ext.btFuel ext.p0 (ext.sym ext.eip0) with
  | some frames, some printed =>
    some ⟨Out.currentEip ext.eip0 ::
      (frames.map (fun p => Out.frameDump p (ext.mem (p + 1))
        [ext.mem (p + 2), ext.mem (p + 3), ext.mem (p + 4),
         ext.mem (p + 5), ext.mem (p + 6)]) ++
       printed.map (fun i => Out.symLine i.eip_fn_name i.eip_line)),
      st, 0⟩
  | _, _ => none

/-- The registry lookup loop of `runcmd` (monitor.c lines 233-236): index of
the first name equal to the first token, by exact string comparison, in
registry order. -/
def lookupCmd (a : List Char) : List (List Char) → Option Nat
  | [] => none
  | n :: ns =>
    if a = n then some 0
    else (lookupCmd a ns).map (fun k => k + 1)

/-- Invoke the handler at registry index `i` with the full argument vector,
exactly as `commands[i].func(argc, argv, tf)` does (handlers that ignore
their arguments in the C code ignore them here). -/
def runHandler (ext : Externals) (st : PageState) (i : Nat)
    (argv : List (List Char)) : Option CmdResult :=
  match i with
  | 0 => some (mon_help st)
  | 1 => some (mon_kerninfo st)
  | 2 => some (mon_alloc_page ext.alloc st)
  | 3 => some (mon_page_status argv st)
  | 4 => some (mon_free_page argv st)
  | 5 => mon_backtrace ext st
  | _ => some ⟨[], st, 0⟩

/-- The dispatch part of `runcmd` (monitor.c lines 230-238): zero tokens is
a silent no-op returning 0; otherwise the first token is looked up in the
registry, the first match's handler is invoked and its value returned, and
with no match one unknown-command message is printed and 0 returned. -/
def dispatchRun (ext : Externals) (st : PageState)
    (argv : List (List Char)) : Option CmdResult :=
  match argv with
  | [] => some ⟨[], st, 0⟩
  | a :: _ =>
    match lookupCmd a commandNames with
    | some i => runHandler ext st i argv
    | none => some ⟨[Out.unknownCmd a], st, 0⟩

/-- `runcmd` (monitor.c lines 202-239): tokenize the buffer, printing the
too-many-arguments message and returning 0 with no handler run when the
abort fires, and otherwise dispatch the token vector. -/
def runcmd (ext : Externals) (st : PageState) (buf : List Char) :
    Option CmdResult :=
  match runcmdTokenize buf with
  | none => some ⟨[Out.tooManyArgs MAXARGS], st, 0⟩
  | some argv => dispatchRun ext st argv

/-- The exit test of the `monitor` REPL loop (monitor.c lines 250-255): the
loop breaks exactly when `runcmd` returns a negative value. -/
def monitorWouldExit (ext : Externals) (st : PageState) (buf : List Char) :
    Bool :=
  match runcmd ext st buf with
  | some res => decide (res.ret < 0)
  | none => false

/-- Boolean validity of a frame-pointer chain: every listed frame pointer is
nonzero, each frame's saved frame pointer is the next listed frame, and the
last frame's saved frame pointer is the zero sentinel. -/
def isChain (mem : Nat → Nat) : List Nat → Bool
  | [] => false
  | [a] => (a != 0) && (mem a == 0)
  | a :: b :: r => (a != 0) && (mem a == b) && isChain mem (b :: r)

/-! ## Concrete instances used by witnesses and counterexamples -/

/-- A synthetic stack memory holding a frame chain of length 2:
frame 100 links to frame 200, frame 200 links to the zero sentinel. -/
def chainMem2 : Nat → Nat := fun x => if x = 100 then 200 else 0

/-- A synthetic stack memory holding a one-frame chain at 100
(saved frame pointer zero) whose saved return address word `*(100+1)`
is 777. -/
def chainMem1 : Nat → Nat := fun x => if x = 101 then 777 else 0

/-- A synthetic symbolizer mapping each instruction pointer to a record
whose line number is that instruction pointer. -/
def idSym : Nat → Eipdebuginfo := fun n => ⟨[], n⟩

/-- The all-free allocator state: every reference count zero. -/
def stZero : PageState := fun _ => 0

/-- An allocator state where page 1 (physical address 0x1000) has
reference count 1 and every other page is free. -/
def stOne : PageState := fun j => if j = 1 then 1 else 0

/-- Concrete external collaborators for witness instantiations. -/
def ext0 : Externals :=
  ⟨some 3, chainMem2, idSym, 100, 555, 2⟩

/-- A line of sixteen one-character tokens. -/
def line16 : List Char :=
  "a a a a a a a a a a a a a a a a".toList

/-! ## Helper lemmas about the unwinder -/

/-- The head of a valid chain is a nonzero frame pointer. -/
lemma isChain_head_ne (mem : Nat → Nat) (a : Nat) (l : List Nat)
    (h : isChain mem (a :: l) = true) : a ≠ 0 := by
  cases l with
  | nil =>
    simp only [isChain, Bool.and_eq_true, bne_iff_ne] at h
    exact h.1
  | cons b r =>
    simp only [isChain, Bool.and_eq_true, bne_iff_ne] at h
    exact h.1.1

/-- On a valid chain of length N, the `dump_stack` loop halts with enough
fuel, visiting exactly the N chain frames in order. -/
lemma unwind_chain (mem : Nat → Nat) :
    ∀ (ps : List Nat) (a fuel : Nat),
      isChain mem (a :: ps) = true → (a :: ps).length ≤ fuel →
      unwindVisits mem fuel a = some (a :: ps) := by
  intro ps
  induction ps with
  | nil =>
    intro a fuel h hf
    cases fuel with
    | zero => simp at hf
    | succ f =>
      simp only [isChain, Bool.and_eq_true, bne_iff_ne, beq_iff_eq] at h
      simp [unwindVisits, h.2]
  | cons b r ih =>
    intro a fuel h hf
    cases fuel with
    | zero => simp at hf
    | succ f =>
      simp only [isChain, Bool.and_eq_true, bne_iff_ne, beq_iff_eq] at h
      obtain ⟨⟨ha, hab⟩, hch⟩ := h
      have hb : b ≠ 0 := isChain_head_ne mem b r hch
      have hrec : unwindVisits mem f b = some (b :: r) := by
        apply ih b f hch
        simp only [List.length_cons] at hf ⊢
        omega
      simp [unwindVisits, hab, hb, hrec]

/-- On a valid chain of length N, the `dump_backstrace_symbols` loop halts
with enough fuel, printing first the record `info0` it was entered with and
then, at each later frame, the symbolization of the previous frame's saved
return address; the last frame's saved return address is resolved but never
printed. -/
lemma sym_chain (mem : Nat → Nat) (sym : Nat → Eipdebuginfo) :
    ∀ (ps : List Nat) (a fuel : Nat) (info0 : Eipdebuginfo),
      isChain mem (a :: ps) = true → (a :: ps).length ≤ fuel →
      symVisits mem sym fuel a info0 =
        some (info0 :: (a :: ps).dropLast.map (fun q => sym (mem (q + 1)))) := by
  intro ps
  induction ps with
  | nil =>
    intro a fuel info0 h hf
    cases fuel with
    | zero => simp at hf
    | succ f =>
      simp only [isChain, Bool.and_eq_true, bne_iff_ne, beq_iff_eq] at h
      simp [symVisits, h.2, List.dropLast]
  | cons b r ih =>
    intro a fuel info0 h hf
    cases fuel with
    | zero => simp at hf
    | succ f =>
      simp only [isChain, Bool.and_eq_true, bne_iff_ne, beq_iff_eq] at h
      obtain ⟨⟨ha, hab⟩, hch⟩ := h
      have hb : b ≠ 0 := isChain_head_ne mem b r hch
      have hrec := ih b f (sym (mem (a + 1))) hch (by
        simp only [List.length_cons] at hf ⊢
        omega)
      simp [symVisits, hab, hb, hrec, List.dropLast]

/-- A self-referential frame (saved frame pointer pointing to itself) makes
the unwind loop run forever: no amount of fuel reaches the sentinel. -/
lemma unwind_selfloop (mem : Nat → Nat) (p : Nat) (hp : p ≠ 0)
    (hm : mem p = p) : ∀ B, unwindVisits mem B p = none := by
  intro B
  induction B with
  | zero => rfl
  | succ f ih => simp [unwindVisits, hm, hp, ih]

/-! ## Claims C1-C3: the stack unwinder -/

/-- Claim C1: for every synthetic frame-pointer chain of known finite length
N whose N-th saved frame pointer is the zero sentinel, each unwinding pass of
the backtrace command (the register/argument dump pass and the symbol pass)
visits exactly N frames and then halts. -/
theorem backtrace_passes_visit_exactly_N (mem : Nat → Nat)
    (sym : Nat → Eipdebuginfo) (info0 : Eipdebuginfo) (a : Nat)
    (ps : List Nat) (fuel : Nat)
    (hch : isChain mem (a :: ps) = true) (hf : (a :: ps).length ≤ fuel) :
    unwindVisits mem fuel a = some (a :: ps) ∧
    ∃ printed, symVisits mem sym fuel a info0 = some printed ∧
      printed.length = (a :: ps).length := by
  refine ⟨unwind_chain mem ps a fuel hch hf,
    _, sym_chain mem sym ps a fuel info0 hch hf, ?_⟩
  simp [List.length_dropLast]

/-- Witness for claim C1 at the concrete two-frame chain 100 → 200 → 0. -/
theorem backtrace_passes_visit_exactly_N_witness :
    unwindVisits chainMem2 2 100 = some [100, 200] ∧
    ∃ printed, symVisits chainMem2 idSym 2 100 ⟨[], 0⟩ = some printed ∧
      printed.length = ([100, 200] : List Nat).length :=
  backtrace_passes_visit_exactly_N chainMem2 idSym ⟨[], 0⟩ 100 [200] 2
    (by decide) (by decide)

/-- Claim C2 counterexample: on the one-frame chain at 100 with saved return
address 777, the symbol pass (entered, as `mon_backtrace` does, with the
shared record primed from the entry instruction pointer 555) prints the
record for 555, not the record the symbolizer returns for this frame's own
saved return address 777 — so the printed name/line is not
`debuginfo_eip` of that frame's instruction pointer. -/
theorem backtrace_symbol_off_by_one_cex :
    isChain chainMem1 [100] = true ∧
    symVisits chainMem1 idSym 1 100 (idSym 555) = some [⟨[], 555⟩] ∧
    idSym (chainMem1 (100 + 1)) = ⟨[], 777⟩ ∧
    (⟨[], 555⟩ : Eipdebuginfo) ≠ ⟨[], 777⟩ :=
  ⟨by decide, rfl, rfl, by decide⟩

/-- Claim C2 amended: the symbol pass prints, at the first visited frame,
the symbolizer record for the entry instruction pointer it was primed with,
and at each subsequent frame the symbolizer record for the *previous*
frame's saved return address (a one-frame lag); the last frame's own saved
return address is resolved but never printed.  The symbolizer's outcome is
never consulted by the loop (the statement holds for every symbolizer
function), so resolution failure cannot stop the walk. -/
theorem backtrace_symbols_lag_one_frame (mem : Nat → Nat)
    (sym : Nat → Eipdebuginfo) (eip0 a : Nat) (ps : List Nat) (fuel : Nat)
    (hch : isChain mem (a :: ps) = true) (hf : (a :: ps).length ≤ fuel) :
    symVisits mem sym fuel a (sym eip0) =
      some (sym eip0 ::
        (a :: ps).dropLast.map (fun q => sym (mem (q + 1)))) :=
  sym_chain mem sym ps a fuel (sym eip0) hch hf

/-- Witness for the amended claim C2 at the two-frame chain 100 → 200 → 0:
the printed records are those for the entry eip 555 and for frame 100's
saved return address `chainMem2 101 = 0`. -/
theorem backtrace_symbols_lag_one_frame_witness :
    symVisits chainMem2 idSym 2 100 (idSym 555) =
      some (idSym 555 ::
        ([100, 200] : List Nat).dropLast.map
          (fun q => idSym (chainMem2 (q + 1)))) :=
  backtrace_symbols_lag_one_frame chainMem2 idSym 555 100 [200] 2
    (by decide) (by decide)

/-- Claim C3 counterexample: no finite defensive frame-count bound makes the
unwinding loop terminate on every cyclic chain — already the self-loop
frame 1 (saved frame pointer pointing back to itself) defeats every bound,
because the loop only stops at the zero sentinel. -/
theorem backtrace_cycle_no_bound_cex :
    ¬ ∃ B : Nat, ∀ (mem : Nat → Nat) (p : Nat), p ≠ 0 → mem p = p →
      (unwindVisits mem B p).isSome = true := by
  rintro ⟨B, h⟩
  have h1 := h (fun _ => 1) 1 (by decide) rfl
  rw [unwind_selfloop (fun _ => 1) 1 (by decide) rfl B] at h1
  simp at h1

/-- Claim C3 amended: the code contains no defensive frame-count bound at
all — on a chain with a self-referential frame the unwinding loop never
reaches the zero sentinel, so for every candidate bound B the loop is still
running after B visited frames. -/
theorem backtrace_selfloop_never_halts (mem : Nat → Nat) (p B : Nat)
    (hp : p ≠ 0) (hm : mem p = p) :
    unwindVisits mem B p = none :=
  unwind_selfloop mem p hp hm B

/-- Witness for the amended claim C3: the self-loop at frame 1 is still
unfinished after 500 frames. -/
theorem backtrace_selfloop_never_halts_witness :
    unwindVisits (fun _ => 1) 500 1 = none :=
  backtrace_selfloop_never_halts (fun _ => 1) 1 500 (by decide) rfl

/-! ## Helper lemmas about the tokenizer -/

/-- Accumulator lemma: the finished-token accumulator only prefixes the
result of the unbounded tokenization loop. -/
lemma tokU_acc : ∀ (s cur : List Char) (acc : List (List Char)),
    tokU s cur acc = acc.reverse ++ tokU s cur [] := by
  intro s
  induction s with
  | nil =>
    intro cur acc
    cases cur <;> simp [tokU]
  | cons c cs ih =>
    intro cur acc
    cases hws : isWS c with
    | true =>
      cases cur with
      | nil =>
        simp only [tokU, hws, if_true]
        exact ih [] acc
      | cons x xs =>
        simp only [tokU, hws, if_true]
        rw [ih [] ((x :: xs).reverse :: acc), ih [] [(x :: xs).reverse]]
        simp
    | false =>
      simp only [tokU, hws, Bool.false_eq_true, if_false]
      exact ih (c :: cur) acc

/-- A token in progress contributes at least one finished token. -/
lemma tokU_len_pos : ∀ (s : List Char) (x : Char) (xs : List Char),
    1 ≤ (tokU s (x :: xs) []).length := by
  intro s
  induction s with
  | nil =>
    intro x xs
    simp [tokU]
  | cons c cs ih =>
    intro x xs
    cases hws : isWS c with
    | true =>
      simp only [tokU, hws, if_true]
      rw [tokU_acc cs [] [(x :: xs).reverse]]
      simp
    | false =>
      simp only [tokU, hws, Bool.false_eq_true, if_false]
      exact ih c (x :: xs)

/-- The bounded tokenization loop of `runcmd` agrees with the unbounded one
exactly up to `MAXARGS - 1` tokens, and aborts beyond: from any state whose
stored-token count respects the bound, the loop completes with the unbounded
result when that result has at most `MAXARGS - 1` tokens, and aborts when it
has more. -/
lemma tokAux_spec : ∀ (s cur : List Char) (acc : List (List Char)),
    (cur ≠ [] → acc.length + 1 ≤ MAXARGS - 1) →
    (cur = [] → acc.length ≤ MAXARGS - 1) →
    ((tokU s cur acc).length ≤ MAXARGS - 1 →
        tokAux s cur acc = some (tokU s cur acc)) ∧
    (MAXARGS - 1 < (tokU s cur acc).length → tokAux s cur acc = none) := by
  intro s
  induction s with
  | nil =>
    intro cur acc h1 h2
    cases cur with
    | nil =>
      refine ⟨fun _ => by simp [tokAux, tokU], fun hlen => ?_⟩
      exfalso
      simp only [tokU, List.length_reverse] at hlen
      have := h2 rfl
      omega
    | cons x xs =>
      refine ⟨fun _ => by simp [tokAux, tokU], fun hlen => ?_⟩
      exfalso
      simp only [tokU, List.length_reverse, List.length_cons] at hlen
      have := h1 (by simp)
      omega
  | cons c cs ih =>
    intro cur acc h1 h2
    cases hws : isWS c with
    | true =>
      cases cur with
      | nil =>
        simp only [tokAux, tokU, hws, if_true]
        exact ih [] acc h1 h2
      | cons x xs =>
        simp only [tokAux, tokU, hws, if_true]
        refine ih [] ((x :: xs).reverse :: acc) (fun h => absurd rfl h) ?_
        intro _
        have := h1 (by simp)
        simp only [List.length_cons]
        omega
    | false =>
      cases cur with
      | nil =>
        by_cases hfull : acc.length = MAXARGS - 1
        · constructor
          · intro hle
            exfalso
            simp only [tokU, hws, Bool.false_eq_true, if_false] at hle
            rw [tokU_acc cs [c] acc] at hle
            have hpos := tokU_len_pos cs c []
            simp only [List.length_append, List.length_reverse] at hle
            omega
          · intro _
            simp [tokAux, hws, hfull]
        · have hle : acc.length ≤ MAXARGS - 1 := h2 rfl
          simp only [tokAux, tokU, hws, Bool.false_eq_true, if_false, hfull]
          refine ih [c] acc (fun _ => by omega) (fun h => absurd h (by simp))
      | cons x xs =>
        simp only [tokAux, tokU, hws, Bool.false_eq_true, if_false]
        exact ih (c :: x :: xs) acc (fun _ => h1 (by simp)) (fun h => absurd h (by simp))

/-- An all-whitespace buffer tokenizes to zero tokens without aborting. -/
lemma tokAux_allWS : ∀ (s : List Char), (∀ c ∈ s, isWS c = true) →
    tokAux s [] [] = some [] := by
  intro s
  induction s with
  | nil => intro _; rfl
  | cons c cs ih =>
    intro h
    have hc : isWS c = true := h c (by simp)
    simp only [tokAux, hc, if_true]
    exact ih (fun d hd => h d (by simp [hd]))

/-- Every token produced by the bounded tokenization loop is non-empty and
whitespace-free, given that the token in progress and the stored tokens
already are. -/
lemma tokAux_wf : ∀ (s cur : List Char) (acc : List (List Char)),
    (∀ c ∈ cur, isWS c = false) →
    (∀ t ∈ acc, t ≠ [] ∧ ∀ c ∈ t, isWS c = false) →
    ∀ ts, tokAux s cur acc = some ts →
      ∀ t ∈ ts, t ≠ [] ∧ ∀ c ∈ t, isWS c = false := by
  intro s
  induction s with
  | nil =>
    intro cur acc hcur hacc ts hts t ht
    cases cur with
    | nil =>
      simp only [tokAux, Option.some.injEq] at hts
      subst hts
      exact hacc t (List.mem_reverse.mp ht)
    | cons x xs =>
      simp only [tokAux, Option.some.injEq] at hts
      subst hts
      rcases List.mem_cons.mp (List.mem_reverse.mp ht) with h | h
      · subst h
        refine ⟨by simp, fun d hd => hcur d (List.mem_reverse.mp hd)⟩
      · exact hacc t h
  | cons c cs ih =>
    intro cur acc hcur hacc ts hts t ht
    cases hws : isWS c with
    | true =>
      cases cur with
      | nil =>
        simp only [tokAux, hws, if_true] at hts
        exact ih [] acc (by simp) hacc ts hts t ht
      | cons x xs =>
        simp only [tokAux, hws, if_true] at hts
        refine ih [] ((x :: xs).reverse :: acc) (by simp) ?_ ts hts t ht
        intro u hu
        rcases List.mem_cons.mp hu with h | h
        · subst h
          refine ⟨by simp, fun d hd => hcur d (List.mem_reverse.mp hd)⟩
        · exact hacc u h
    | false =>
      cases cur with
      | nil =>
        by_cases hfull : acc.length = MAXARGS - 1
        · simp [tokAux, hws, hfull] at hts
        · simp only [tokAux, hws, Bool.false_eq_true, if_false, hfull] at hts
          refine ih [c] acc ?_ hacc ts hts t ht
          intro d hd
          rcases List.mem_singleton.mp hd with rfl
          exact hws
      | cons x xs =>
        simp only [tokAux, hws, Bool.false_eq_true, if_false] at hts
        refine ih (c :: x :: xs) acc ?_ hacc ts hts t ht
        intro d hd
        rcases List.mem_cons.mp hd with rfl | h
        · exact hws
        · exact hcur d h

/-! ## Claims C6-C7: the tokenizer -/

/-- Claim C6 counterexample: a line of exactly sixteen tokens — no more than
the configured maximum `MAXARGS = 16` — is nevertheless aborted by
tokenization, because the abort fires as soon as the token about to start
would be stored at index `MAXARGS - 1`. -/
theorem tokenize_sixteen_tokens_abort_cex :
    (tokU line16 [] []).length = 16 ∧ (16 : Nat) ≤ MAXARGS ∧
    runcmdTokenize line16 = none :=
  ⟨rfl, by decide, rfl⟩

/-- Claim C6 amended: the tokenization capacity is `MAXARGS - 1 = 15`
tokens, one less than the configured maximum, because `runcmd` keeps the
last `argv` slot for the terminator: every line with more than 15 tokens
aborts — the too-many-arguments message reports the limit as `MAXARGS`,
zero tokens are returned, the state is untouched and no handler runs —
and every line with at most 15 tokens tokenizes completely with no abort. -/
theorem tokenize_maxargs_threshold (buf : List Char) :
    (MAXARGS - 1 < (tokU buf [] []).length →
      runcmdTokenize buf = none ∧
      ∀ (ext : Externals) (st : PageState),
        runcmd ext st buf = some ⟨[Out.tooManyArgs MAXARGS], st, 0⟩) ∧
    ((tokU buf [] []).length ≤ MAXARGS - 1 →
      runcmdTokenize buf = some (tokU buf [] [])) := by
  have h := tokAux_spec buf [] [] (fun h => absurd rfl h)
    (fun _ => Nat.zero_le _)
  constructor
  · intro hgt
    have habort : runcmdTokenize buf = none := h.2 hgt
    exact ⟨habort, fun ext st => by simp [runcmd, habort]⟩
  · intro hle
    exact h.1 hle

/-- Witness for the amended claim C6: the sixteen-token line aborts, the
two-token example line completes. -/
theorem tokenize_maxargs_threshold_witness :
    runcmdTokenize line16 = none ∧
    runcmdTokenize "  free_page   0x1000 ".toList =
      some (tokU "  free_page   0x1000 ".toList [] []) :=
  ⟨((tokenize_maxargs_threshold line16).1 (by decide)).1,
   (tokenize_maxargs_threshold ("  free_page   0x1000 ".toList)).2 (by decide)⟩

/-- Claim C7: tokenization splits the line on the whitespace set into
non-empty whitespace-free substrings — the example line yields exactly the
two tokens `free_page` and `0x1000`, an empty or all-whitespace line yields
zero tokens, and every produced token is non-empty and free of whitespace. -/
theorem tokenize_whitespace_split :
    runcmdTokenize "  free_page   0x1000 ".toList =
      some ["free_page".toList, "0x1000".toList] ∧
    runcmdTokenize [] = some [] ∧
    (∀ s : List Char, (∀ c ∈ s, isWS c = true) → runcmdTokenize s = some []) ∧
    (∀ (s : List Char) (ts : List (List Char)), runcmdTokenize s = some ts →
      ∀ t ∈ ts, t ≠ [] ∧ ∀ c ∈ t, isWS c = false) := by
  refine ⟨by decide, rfl, tokAux_allWS, ?_⟩
  intro s ts hts
  exact tokAux_wf s [] [] (by simp) (by simp) ts hts

/-- Witness for claim C7: the all-whitespace part applied to a three-blank
line, and the well-formedness part applied to the example line's first
token. -/
theorem tokenize_whitespace_split_witness :
    runcmdTokenize "   ".toList = some [] ∧
    ("free_page".toList ≠ [] ∧ ∀ c ∈ "free_page".toList, isWS c = false) :=
  ⟨tokenize_whitespace_split.2.2.1 ("   ".toList) (by decide),
   tokenize_whitespace_split.2.2.2 ("  free_page   0x1000 ".toList)
     ["free_page".toList, "0x1000".toList] tokenize_whitespace_split.1
     ("free_page".toList) (by simp)⟩

/-! ## Claims C4, C5, C9: the page diagnostic handlers -/

/-- Claim C4: with exactly one address argument, `free_page` decrements the
resolved page's reference count from 1 to 0 and reports success exactly when
the count is 1; for any other count it reports failure and leaves the
allocator state — every reference count — unchanged. -/
theorem free_page_refcount_policy (st : PageState) (name a : List Char) :
    (st (pa2page (castU32 (strtol a))) = 1 →
      mon_free_page [name, a] st =
        ⟨[Out.freeOk], upd st (pa2page (castU32 (strtol a))) 0, 0⟩) ∧
    (st (pa2page (castU32 (strtol a))) ≠ 1 →
      mon_free_page [name, a] st = ⟨[Out.freeFail], st, 0⟩) := by
  constructor
  · intro h
    simp [mon_free_page, h]
  · intro h
    simp [mon_free_page, h]

/-- Witness for claim C4: freeing physical address 0x1000 succeeds and zeros
the count when page 1 has count 1, and fails without mutation when it has
count 0. -/
theorem free_page_refcount_policy_witness :
    mon_free_page ["free_page".toList, "0x1000".toList] stOne =
      ⟨[Out.freeOk],
       upd stOne (pa2page (castU32 (strtol "0x1000".toList))) 0, 0⟩ ∧
    mon_free_page ["free_page".toList, "0x1000".toList] stZero =
      ⟨[Out.freeFail], stZero, 0⟩ :=
  ⟨(free_page_refcount_policy stOne ("free_page".toList)
      ("0x1000".toList)).1 (by decide),
   (free_page_refcount_policy stZero ("free_page".toList)
      ("0x1000".toList)).2 (by decide)⟩

/-- Claim C5: with exactly one address argument, `page_status` reports
allocated exactly when the resolved page's reference count is positive and
free exactly when it is zero, returns 0, and leaves the allocator state
untouched. -/
theorem page_status_readonly_report (st : PageState) (name a : List Char) :
    ((mon_page_status [name, a] st).out = [Out.allocated] ↔
      0 < st (pa2page (castU32 (strtol a)))) ∧
    ((mon_page_status [name, a] st).out = [Out.free] ↔
      st (pa2page (castU32 (strtol a))) = 0) ∧
    (mon_page_status [name, a] st).st = st ∧
    (mon_page_status [name, a] st).ret = 0 := by
  by_cases h : 0 < st (pa2page (castU32 (strtol a)))
  · have he : mon_page_status [name, a] st = ⟨[Out.allocated], st, 0⟩ := by
      simp [mon_page_status, h]
    rw [he]
    exact ⟨by simp [h], by simp; omega, rfl, rfl⟩
  · have he : mon_page_status [name, a] st = ⟨[Out.free], st, 0⟩ := by
      simp [mon_page_status, h]
    rw [he]
    exact ⟨by simp; omega, by simp; omega, rfl, rfl⟩

/-- Witness for claim C5 at the two concrete states: page 1 allocated in
`stOne`, free in `stZero`. -/
theorem page_status_readonly_report_witness :
    ((mon_page_status ["page_status".toList, "0x1000".toList] stOne).out =
        [Out.allocated] ↔
      0 < stOne (pa2page (castU32 (strtol "0x1000".toList)))) ∧
    (mon_page_status ["page_status".toList, "0x1000".toList] stZero).st =
      stZero :=
  ⟨(page_status_readonly_report stOne ("page_status".toList)
      ("0x1000".toList)).1,
   (page_status_readonly_report stZero ("page_status".toList)
      ("0x1000".toList)).2.2.1⟩

/-- Claim C9 counterexample: the fully malformed numeral `zzz` parses to 0,
and both address-taking handlers behave exactly as if the operator had typed
address `0` — a normal status/failure message, no parse-error report of any
kind. -/
theorem strtol_malformed_silent_zero_cex :
    strtol "zzz".toList = 0 ∧
    mon_page_status ["page_status".toList, "zzz".toList] stZero =
      ⟨[Out.free], stZero, 0⟩ ∧
    mon_page_status ["page_status".toList, "zzz".toList] stZero =
      mon_page_status ["page_status".toList, "0".toList] stZero ∧
    mon_free_page ["free_page".toList, "zzz".toList] stZero =
      ⟨[Out.freeFail], stZero, 0⟩ ∧
    mon_free_page ["free_page".toList, "zzz".toList] stZero =
      mon_free_page ["free_page".toList, "0".toList] stZero :=
  ⟨rfl, rfl, rfl, rfl, rfl⟩

/-- Claim C9 amended: the handlers pass the argument to `strtol` and use the
result unchecked, so every argument that `strtol` converts to 0 — including
every fully malformed numeral — is silently treated as the address zero,
with behavior identical to a literal `0` argument; no parse error is
reported. -/
theorem handlers_treat_malformed_addr_as_zero (st : PageState)
    (s : List Char) (h : strtol s = 0) :
    mon_page_status ["page_status".toList, s] st =
      mon_page_status ["page_status".toList, "0".toList] st ∧
    mon_free_page ["free_page".toList, s] st =
      mon_free_page ["free_page".toList, "0".toList] st := by
  have h0 : strtol "0".toList = 0 := rfl
  constructor
  · simp only [mon_page_status, h, h0]
  · simp only [mon_free_page, h, h0]

/-- Witness for the amended claim C9 at the malformed numeral `++1`. -/
theorem handlers_treat_malformed_addr_as_zero_witness :
    mon_page_status ["page_status".toList, "++1".toList] stOne =
      mon_page_status ["page_status".toList, "0".toList] stOne ∧
    mon_free_page ["free_page".toList, "++1".toList] stOne =
      mon_free_page ["free_page".toList, "0".toList] stOne :=
  handlers_treat_malformed_addr_as_zero stOne ("++1".toList) rfl

/-! ## Helper lemmas about dispatch and handler return values -/

/-- The registry lookup loop finds the first exact match: the found index
holds the searched name and no earlier index does. -/
lemma lookupCmd_first (a : List Char) :
    ∀ (ns : List (List Char)) (i : Nat), lookupCmd a ns = some i →
      ns[i]? = some a ∧ ∀ j, j < i → ns[j]? ≠ some a := by
  intro ns
  induction ns with
  | nil =>
    intro i h
    simp [lookupCmd] at h
  | cons n ms ih =>
    intro i h
    unfold lookupCmd at h
    split at h
    · rename_i hn
      injection h with h2
      subst h2
      exact ⟨by simp [hn], fun j hj => absurd hj (by omega)⟩
    · rename_i hn
      cases hm : lookupCmd a ms with
      | none =>
        rw [hm] at h
        simp at h
      | some k =>
        rw [hm] at h
        simp only [Option.map_some', Option.some.injEq] at h
        subst h
        obtain ⟨h1, h2⟩ := ih k hm
        refine ⟨by simpa using h1, ?_⟩
        intro j hj
        cases j with
        | zero =>
          simp only [List.getElem?_cons_zero]
          exact fun hh => hn (Option.some.inj hh).symm
        | succ j2 =>
          simp only [List.getElem?_cons_succ]
          exact h2 j2 (by omega)

/-- `mon_page_status` returns 0 on every path. -/
lemma mon_page_status_ret (args : List (List Char)) (st : PageState) :
    (mon_page_status args st).ret = 0 := by
  unfold mon_page_status
  split
  · split <;> rfl
  · rfl

/-- `mon_free_page` returns 0 on every path. -/
lemma mon_free_page_ret (args : List (List Char)) (st : PageState) :
    (mon_free_page args st).ret = 0 := by
  unfold mon_free_page
  split
  · split <;> rfl
  · rfl

/-- `mon_alloc_page` returns 0 on every path. -/
lemma mon_alloc_page_ret (alloc : Option Nat) (st : PageState) :
    (mon_alloc_page alloc st).ret = 0 := by
  unfold mon_alloc_page
  split <;> rfl

/-- `mon_backtrace` returns 0 whenever it returns at all. -/
lemma mon_backtrace_ret (ext : Externals) (st : PageState) (res : CmdResult)
    (h : mon_backtrace ext st = some res) : res.ret = 0 := by
  unfold mon_backtrace at h
  split at h
  · injection h with h2
    subst h2
    rfl
  · exact Option.noConfusion h

/-- Every registered handler returns 0 whenever it returns at all. -/
lemma runHandler_ret (ext : Externals) (st : PageState) (i : Nat)
    (argv : List (List Char)) (res : CmdResult)
    (h : runHandler ext st i argv = some res) : res.ret = 0 := by
  match i with
  | 0 =>
    simp only [runHandler, Option.some.injEq] at h
    subst h
    rfl
  | 1 =>
    simp only [runHandler, Option.some.injEq] at h
    subst h
    rfl
  | 2 =>
    simp only [runHandler, Option.some.injEq] at h
    subst h
    exact mon_alloc_page_ret ext.alloc st
  | 3 =>
    simp only [runHandler, Option.some.injEq] at h
    subst h
    exact mon_page_status_ret argv st
  | 4 =>
    simp only [runHandler, Option.some.injEq] at h
    subst h
    exact mon_free_page_ret argv st
  | 5 =>
    simp only [runHandler] at h
    exact mon_backtrace_ret ext st res h
  | n + 6 =>
    simp only [runHandler, Option.some.injEq] at h
    subst h
    rfl

/-- `runcmd` returns 0 whenever it returns at all. -/
lemma runcmd_ret (ext : Externals) (st : PageState) (buf : List Char)
    (res : CmdResult) (h : runcmd ext st buf = some res) : res.ret = 0 := by
  unfold runcmd at h
  split at h
  · injection h with h2
    subst h2
    rfl
  · rename_i argv heq
    unfold dispatchRun at h
    split at h
    · injection h with h2
      subst h2
      rfl
    · rename_i a rest
      split at h
      · rename_i i hi
        exact runHandler_ret ext st i (a :: rest) res h
      · injection h with h2
        subst h2
        rfl

/-! ## Claims C8, C10: dispatch and the REPL exit sentinel -/

/-- Claim C8: dispatch on a non-empty argument vector compares the first
token against the registry entries by exact match in registry order,
invokes the first match's handler with the full vector and context and
returns its value; with no match it prints exactly one unknown-command
message and returns the continue value 0; a zero-token vector performs no
lookup and prints nothing. -/
theorem dispatch_first_match (ext : Externals) (st : PageState)
    (argv : List (List Char)) :
    (argv = [] → dispatchRun ext st argv = some ⟨[], st, 0⟩) ∧
    (∀ a rest, argv = a :: rest →
      (∀ i, lookupCmd a commandNames = some i →
        commandNames[i]? = some a ∧
        (∀ j, j < i → commandNames[j]? ≠ some a) ∧
        dispatchRun ext st argv = runHandler ext st i argv) ∧
      (lookupCmd a commandNames = none →
        dispatchRun ext st argv = some ⟨[Out.unknownCmd a], st, 0⟩)) := by
  constructor
  · rintro rfl
    rfl
  · rintro a rest rfl
    constructor
    · intro i hi
      obtain ⟨h1, h2⟩ := lookupCmd_first a commandNames i hi
      exact ⟨h1, h2, by simp [dispatchRun, hi]⟩
    · intro hn
      simp [dispatchRun, hn]

/-- Witness for claim C8: `free_page` matches registry index 4 and no
earlier entry, dispatch runs that handler; an unregistered first token
yields exactly one unknown-command message. -/
theorem dispatch_first_match_witness :
    (commandNames[4]? = some ("free_page".toList) ∧
     (∀ j, j < 4 → commandNames[j]? ≠ some ("free_page".toList)) ∧
     dispatchRun ext0 stZero ["free_page".toList] =
       runHandler ext0 stZero 4 ["free_page".toList]) ∧
    dispatchRun ext0 stZero ["nope".toList] =
      some ⟨[Out.unknownCmd ("nope".toList)], stZero, 0⟩ :=
  ⟨((dispatch_first_match ext0 stZero ["free_page".toList]).2
      ("free_page".toList) [] rfl).1 4 (by decide),
   ((dispatch_first_match ext0 stZero ["nope".toList]).2
      ("nope".toList) [] rfl).2 (by decide)⟩

/-- Claim C10: every registered handler returns 0 whenever it returns, so
`runcmd` never produces a negative value and the REPL's negative exit
sentinel is unreachable through any built-in command: the monitor loop's
break test is false on every input line and every state. -/
theorem handlers_return_zero_monitor_never_exits (ext : Externals)
    (st : PageState) (buf : List Char) :
    (∀ (i : Nat) (argv : List (List Char)) (res : CmdResult),
      runHandler ext st i argv = some res → res.ret = 0) ∧
    (∀ res : CmdResult, runcmd ext st buf = some res → res.ret = 0) ∧
    monitorWouldExit ext st buf = false := by
  refine ⟨runHandler_ret ext st, runcmd_ret ext st buf, ?_⟩
  unfold monitorWouldExit
  cases hc : runcmd ext st buf with
  | none => rfl
  | some res =>
    have hz := runcmd_ret ext st buf res hc
    simp [hz]

/-- Witness for claim C10 on the `help` line: the help handler's value is 0
and the loop's break test is false. -/
theorem handlers_return_zero_monitor_never_exits_witness :
    (mon_help stZero).ret = 0 ∧
    monitorWouldExit ext0 stZero ("help".toList) = false :=
  ⟨(handlers_return_zero_monitor_never_exits ext0 stZero
      ("help".toList)).1 0 ["help".toList] (mon_help stZero) rfl,
   (handlers_return_zero_monitor_never_exits ext0 stZero
      ("help".toList)).2.2⟩
